import Mathlib

/-
  Shallow embedding of the blitzhttp router (route.go, router.go, group.go,
  plus the types file with GetParams and the method index constants).

  Handlers are abstract values of a type H; a Go Middleware
  (func(http.Handler) http.Handler) becomes a function H -> H.  Go maps
  from path strings to route pointers become association lists; the
  fixed-size handler array ([mAny+1]*routeHandler) becomes a function
  from Fin 6 to an optional handler.  The compiled fast path (staticCode)
  is a closure over the live router state, so it is modelled by a Bool
  presence flag together with staticCodeRun, the body of the closure
  evaluated against the current state.
-/

namespace Blitz

variable {H : Type}

/-- A Go middleware transforms one handler into another. -/
def Middleware (H : Type) : Type := H → H

/-- Method indices mGet..mAny from the constants block. -/
def mGet : Fin 6 := 0
def mPost : Fin 6 := 1
def mPut : Fin 6 := 2
def mDelete : Fin 6 := 3
def mPatch : Fin 6 := 4
def mAny : Fin 6 := 5

/-- routeHandler holds one pre-composed handler. -/
structure routeHandler (H : Type) where
  handler : H
deriving DecidableEq

/-- route: the fixed-size array of per-method slots plus the two flags. -/
structure route (H : Type) where
  handlers : Fin 6 → Option (routeHandler H)
  isParam : Bool
  isWild : Bool

/-- The zero value of the route struct: all slots nil, flags false. -/
def routeEmpty : route H := ⟨fun _ => none, false, false⟩

/-- Array slot assignment handlers[i] = v. -/
def updSlot (hs : Fin 6 → Option (routeHandler H)) (i : Fin 6)
    (v : Option (routeHandler H)) : Fin 6 → Option (routeHandler H) :=
  fun j => if j = i then v else hs j

/-- getHandler: the switch on the method string. -/
def route.getHandler (rt : route H) (method : String) : Option (routeHandler H) :=
  if method = "GET" then rt.handlers mGet
  else if method = "POST" then rt.handlers mPost
  else if method = "PUT" then rt.handlers mPut
  else if method = "DELETE" then rt.handlers mDelete
  else if method = "PATCH" then rt.handlers mPatch
  else none

/-- Go map read m[k]: association list lookup. -/
def tableGet : List (String × route H) → String → Option (route H)
  | [], _ => none
  | (k, v) :: rest, q => if k = q then some v else tableGet rest q

/-- Go map write m[k] = v: replace the binding or append a fresh one. -/
def tableSet : List (String × route H) → String → route H → List (String × route H)
  | [], q, v => [(q, v)]
  | (k, w) :: rest, q, v =>
      if k = q then (q, v) :: rest else (k, w) :: tableSet rest q v

/-- strings.Trim(s, "/"): drop leading and trailing slash characters. -/
def goTrimSlash (s : String) : String :=
  ⟨(((s.data.dropWhile (fun c => c = '/')).reverse.dropWhile
      (fun c => c = '/')).reverse)⟩

/-- strings.HasSuffix(s, "*") for the one-character suffix. -/
def hasSuffixStar (s : String) : Bool :=
  match s.data.getLast? with
  | some c => c = '*'
  | none => false

/-- strings.TrimSuffix(s, "*") for the one-character suffix. -/
def trimSuffixStar (s : String) : String :=
  if hasSuffixStar s then ⟨s.data.dropLast⟩ else s

/-- strings.Contains(s, ":") for the one-character substring. -/
def containsColon (s : String) : Bool :=
  s.data.contains ':'

/-- composeHandler: wrap the handler, last middleware innermost. -/
def composeHandler (handler : H) (mws : List (Middleware H)) : H :=
  mws.foldr (fun m h => m h) handler

/-- Router: the three partitions, the optional catch-all, the global
middleware list, and the presence of the compiled fast path. -/
structure Router (H : Type) where
  static : List (String × route H)
  params : List (String × route H)
  wildcards : List (String × route H)
  catchAll : Option (route H)
  globalMWs : List (Middleware H)
  staticCodePresent : Bool

/-- compileStatic: clear the fast path when the static table is empty,
otherwise install the closure over the live state. -/
def Router.compileStatic (r : Router H) : Router H :=
  { r with staticCodePresent := !r.static.isEmpty }

/-- New: fresh empty router, compiled once. -/
def Router.New : Router H :=
  (Router.mk [] [] [] none [] false).compileStatic

/-- addRoute: normalize, classify into a partition, install the composed
handler in the method slot, then recompile the fast path. -/
def Router.addRoute (r : Router H) (method : Fin 6) (path0 : String)
    (handler : H) (mws : List (Middleware H)) : Router H :=
  let path1 := goTrimSlash path0
  let isWild := hasSuffixStar path1
  let isParam := containsColon path1
  let path := if isWild then trimSuffixStar path1 else path1
  let upd : List (String × route H) → List (String × route H) := fun routes =>
    let rt0 := (tableGet routes path).getD routeEmpty
    let mws2 := r.globalMWs ++ mws
    let rt : route H :=
      { rt0 with
          isParam := isParam
          isWild := isWild
          handlers := updSlot rt0.handlers method
            (some ⟨composeHandler handler mws2⟩) }
    tableSet routes path rt
  let r' : Router H :=
    if isWild then { r with wildcards := upd r.wildcards }
    else if isParam then { r with params := upd r.params }
    else { r with static := upd r.static }
  r'.compileStatic

/-- addCatchAll: create the catch-all route if absent, then set the five
method slots to the same composed handler.  No recompile happens here. -/
def Router.addCatchAll (r : Router H) (handler : H)
    (mws : List (Middleware H)) : Router H :=
  let rt0 := r.catchAll.getD routeEmpty
  let mws2 := r.globalMWs ++ mws
  let rt : route H :=
    { rt0 with
        handlers :=
          [mGet, mPost, mPut, mDelete, mPatch].foldl
            (fun hs i => updSlot hs i (some ⟨composeHandler handler mws2⟩))
            rt0.handlers }
  { r with catchAll := some rt }

/-- ANY: the special path token registers the catch-all, anything else
registers the same handler for the five methods in turn. -/
def Router.ANY (r : Router H) (path : String) (handler : H)
    (mws : List (Middleware H)) : Router H :=
  if path = "*" then r.addCatchAll handler mws
  else
    [mGet, mPost, mPut, mDelete, mPatch].foldl
      (fun acc i => acc.addRoute i path handler mws) r

/-- recomposeHandlers: wrap every stored handler in every partition and
the catch-all with the current global list, then recompile. -/
def route.recompose (gmws : List (Middleware H)) (rt : route H) : route H :=
  { rt with
      handlers := fun i =>
        (rt.handlers i).map (fun h => ⟨composeHandler h.handler gmws⟩) }

def Router.recomposeHandlers (r : Router H) : Router H :=
  ({ r with
      static := r.static.map
        (fun (p : String × route H) => (p.1, route.recompose r.globalMWs p.2))
      params := r.params.map
        (fun (p : String × route H) => (p.1, route.recompose r.globalMWs p.2))
      wildcards := r.wildcards.map
        (fun (p : String × route H) => (p.1, route.recompose r.globalMWs p.2))
      catchAll := r.catchAll.map (route.recompose r.globalMWs) }).compileStatic

/-- Use: append to the global list, then rebuild everything. -/
def Router.Use (r : Router H) (mws : List (Middleware H)) : Router H :=
  ({ r with globalMWs := r.globalMWs ++ mws }).recomposeHandlers

/-- The dispatch outcome visible to a request: the auto-OPTIONS
no-content response with its Allow header, the invocation of a composed
handler (with the optional context value the params key was set to), or
the not-found response. -/
inductive Outcome (H : Type) where
  | noContent (allow : String)
  | invoked (h : H) (params : Option String)
  | notFound
deriving DecidableEq

/-- GetParams: read the context value, empty string when absent. -/
def GetParams (params : Option String) : String := params.getD ""

/-- The catch-all block shared verbatim by the compiled closure and the
uncompiled fallback: try the catch-all, else not-found. -/
def Router.catchAllStep (r : Router H) (method path : String) : Outcome H :=
  match r.catchAll with
  | some ca =>
      match ca.getHandler method with
      | some h => .invoked h.handler (some path)
      | none => .notFound
  | none => .notFound

/-- The body of the compiled staticCode closure: trim, exact static
match, else the catch-all block. -/
def Router.staticCodeRun (r : Router H) (method urlPath : String) : Outcome H :=
  let path := goTrimSlash urlPath
  match tableGet r.static path with
  | some rt =>
      match rt.getHandler method with
      | some h => .invoked h.handler none
      | none => r.catchAllStep method path
  | none => r.catchAllStep method path

/-- ServeHTTP: auto-OPTIONS first, then the compiled fast path when
present, else the uncompiled fallback (exact match, the parameterized
and wildcard blocks being commented out, then catch-all, then 404). -/
def Router.ServeHTTP (r : Router H) (method urlPath : String) : Outcome H :=
  if method = "OPTIONS" then .noContent "GET,POST,PUT,DELETE,PATCH,OPTIONS"
  else
    let path := goTrimSlash urlPath
    if r.staticCodePresent then r.staticCodeRun method urlPath
    else
      match tableGet r.static path with
      | some rt =>
          match rt.getHandler method with
          | some h => .invoked h.handler none
          | none => r.catchAllStep method path
      | none => r.catchAllStep method path

/-- Group: the bound prefix and inherited middleware list (the router
pointer is passed explicitly to each operation). -/
structure Group (H : Type) where
  pfx : String
  mws : List (Middleware H)

/-- Router.Group: trim the prefix and bind the middlewares. -/
def Router.mkGroup (_ : Router H) (pfx : String)
    (mws : List (Middleware H)) : Group H :=
  ⟨goTrimSlash pfx, mws⟩

/-- Group.addRoute: prepend the prefix to the path and the inherited
middlewares to the per-call ones. -/
def Group.addRoute (g : Group H) (r : Router H) (method : Fin 6)
    (path : String) (handler : H) (mws : List (Middleware H)) : Router H :=
  r.addRoute method (g.pfx ++ "/" ++ goTrimSlash path) handler (g.mws ++ mws)

/-- Group.addCatchAll: the prefix is not consulted. -/
def Group.addCatchAll (g : Group H) (r : Router H) (handler : H)
    (mws : List (Middleware H)) : Router H :=
  r.addCatchAll handler (g.mws ++ mws)

/-- Group.ANY: star registers the catch-all, else the five methods. -/
def Group.ANY (g : Group H) (r : Router H) (path : String) (handler : H)
    (mws : List (Middleware H)) : Router H :=
  if path = "*" then g.addCatchAll r handler mws
  else
    [mGet, mPost, mPut, mDelete, mPatch].foldl
      (fun acc i => g.addRoute acc i path handler mws) r

/-- Group.mkGroup: nested group, prefixes and middlewares concatenated. -/
def Group.mkGroup (g : Group H) (pfx : String)
    (mws : List (Middleware H)) : Group H :=
  ⟨g.pfx ++ "/" ++ goTrimSlash pfx, g.mws ++ mws⟩

/-- The static lookup composed with the method switch: the handler a
request method would find on the static partition for a normalized path. -/
def staticHandlerFor (r : Router H) (method path : String) :
    Option (routeHandler H) :=
  match tableGet r.static path with
  | some rt => rt.getHandler method
  | none => none

/-- The handler a request method would find on the catch-all route. -/
def catchAllHandlerFor (r : Router H) (method : String) :
    Option (routeHandler H) :=
  match r.catchAll with
  | some ca => ca.getHandler method
  | none => none

/-- The five dispatchable request method strings. -/
def fiveMethods : List String := ["GET", "POST", "PUT", "DELETE", "PATCH"]

/-- The partition a registration path is classified into by addRoute:
a trailing star wins over a colon, the rest is static. -/
inductive PartKind where
  | wild
  | param
  | stat
deriving DecidableEq

def partKind (path : String) : PartKind :=
  if hasSuffixStar (goTrimSlash path) then .wild
  else if containsColon (goTrimSlash path) then .param
  else .stat

/-- The key a registration path is stored under: the normalized path,
with the trailing star stripped for wildcard paths. -/
def routeKey (path : String) : String :=
  if hasSuffixStar (goTrimSlash path) then trimSuffixStar (goTrimSlash path)
  else goTrimSlash path

/-- The partition map addRoute selects for a registration path. -/
def partitionOf (r : Router H) (path : String) : List (String × route H) :=
  if hasSuffixStar (goTrimSlash path) then r.wildcards
  else if containsColon (goTrimSlash path) then r.params
  else r.static

/-- The Route stored for a registration path, in whichever partition
the path classifies into. -/
def routeFor (r : Router H) (path : String) : Option (route H) :=
  tableGet (partitionOf r path) (routeKey path)

/-- The method slot held by the Route stored for a registration path. -/
def slotForPath (r : Router H) (path : String) (i : Fin 6) :
    Option (routeHandler H) :=
  match routeFor r path with
  | some rt => rt.handlers i
  | none => none

/-- A tracing middleware over trace-valued handlers: a handler is the
list of events its invocation produces, and the middleware labelled i
records i and then calls through. -/
def tag (i : Nat) : Middleware (List Nat) := fun h => i :: h

/-- One registration-phase operation on a router: a plain registration,
an ANY registration (catch-all when the path is the star token), the
same two through a group, or a Use call. -/
inductive Op (H : Type) where
  | reg (method : Fin 6) (path : String) (handler : H)
      (mws : List (Middleware H))
  | regAny (path : String) (handler : H) (mws : List (Middleware H))
  | regGroup (pfx : String) (gmws : List (Middleware H)) (method : Fin 6)
      (path : String) (handler : H) (mws : List (Middleware H))
  | regGroupAny (pfx : String) (gmws : List (Middleware H)) (path : String)
      (handler : H) (mws : List (Middleware H))
  | use (mws : List (Middleware H))

/-- Interpretation of one operation by the corresponding source call. -/
def applyOp (r : Router H) : Op H → Router H
  | .reg m p h mws => r.addRoute m p h mws
  | .regAny p h mws => r.ANY p h mws
  | .regGroup pfx gmws m p h mws => (Group.mk pfx gmws).addRoute r m p h mws
  | .regGroupAny pfx gmws p h mws => (Group.mk pfx gmws).ANY r p h mws
  | .use mws => r.Use mws

/-- A registration phase: a sequence of operations from a start state. -/
def runOps (r : Router H) (ops : List (Op H)) : Router H :=
  ops.foldl applyOp r

/-- The fast-path consistency invariant: the compiled function is
present exactly when the static partition is non-empty. -/
def goodFlag (r : Router H) : Prop :=
  r.staticCodePresent = !r.static.isEmpty

/-- Sample states used to instantiate the theorems below. -/
def w1r : Router Nat := (Router.New (H := Nat)).addRoute mGet "api" 7 []

def w1rt : route Nat := ⟨updSlot (fun _ => none) mGet (some ⟨7⟩), false, false⟩

def w2r : Router Nat :=
  ((Router.New (H := Nat)).addRoute mGet "api" 7 []).ANY "*" 9 []

def w2ca : route Nat := w2r.catchAll.getD routeEmpty

def w5r : Router Nat := (Router.New (H := Nat)).addRoute mGet "api" 7 []

def w6r : Router Nat := (Router.New (H := Nat)).addRoute mGet "/files/*" 1 []

def w6rt : route Nat := ⟨updSlot (fun _ => none) mGet (some ⟨1⟩), false, true⟩

def w8r : Router Nat := (Router.New (H := Nat)).addRoute mGet "api" 7 []

theorem five_ne_options {method : String} (hM : method ∈ fiveMethods) :
    method ≠ "OPTIONS" := by
  fin_cases hM <;> decide

theorem catchAllStep_invoked (r : Router H) (ca : route H) (hd : routeHandler H)
    (method p : String) (hca : r.catchAll = some ca)
    (hh : ca.getHandler method = some hd) :
    r.catchAllStep method p = .invoked hd.handler (some p) := by
  simp only [Router.catchAllStep, hca, hh]

theorem catchAllStep_notFound (r : Router H) (method p : String)
    (hca : catchAllHandlerFor r method = none) :
    r.catchAllStep method p = .notFound := by
  cases h : r.catchAll with
  | none => simp only [Router.catchAllStep, h]
  | some ca =>
      simp only [catchAllHandlerFor, h] at hca
      simp only [Router.catchAllStep, h, hca]

theorem staticCodeRun_skip (r : Router H) (method path : String)
    (hs : staticHandlerFor r method (goTrimSlash path) = none) :
    r.staticCodeRun method path = r.catchAllStep method (goTrimSlash path) := by
  cases h : tableGet r.static (goTrimSlash path) with
  | none => simp only [Router.staticCodeRun, h]
  | some rt =>
      simp only [staticHandlerFor, h] at hs
      simp only [Router.staticCodeRun, h, hs]

theorem serve_skip (r : Router H) (method path : String)
    (hne : method ≠ "OPTIONS")
    (hs : staticHandlerFor r method (goTrimSlash path) = none) :
    r.ServeHTTP method path = r.catchAllStep method (goTrimSlash path) := by
  unfold Router.ServeHTTP
  rw [if_neg hne]
  cases hc : r.staticCodePresent with
  | true => simp only [if_true]; exact staticCodeRun_skip r method path hs
  | false =>
      simp only [Bool.false_eq_true, if_false]
      cases h : tableGet r.static (goTrimSlash path) with
      | none => simp only [h]
      | some rt =>
          simp only [staticHandlerFor, h] at hs
          simp only [h, hs]

theorem staticCodeRun_hit (r : Router H) (rt : route H) (hd : routeHandler H)
    (method path : String)
    (hs : tableGet r.static (goTrimSlash path) = some rt)
    (hh : rt.getHandler method = some hd) :
    r.staticCodeRun method path = .invoked hd.handler none := by
  simp only [Router.staticCodeRun, hs, hh]

theorem serve_hit (r : Router H) (rt : route H) (hd : routeHandler H)
    (method path : String) (hne : method ≠ "OPTIONS")
    (hs : tableGet r.static (goTrimSlash path) = some rt)
    (hh : rt.getHandler method = some hd) :
    r.ServeHTTP method path = .invoked hd.handler none := by
  unfold Router.ServeHTTP
  rw [if_neg hne]
  cases hc : r.staticCodePresent with
  | true => simp only [if_true]; exact staticCodeRun_hit r rt hd method path hs hh
  | false => simp only [Bool.false_eq_true, if_false, hs, hh]

/-- Claim C1: a request whose method is one of the five dispatchable
methods and whose normalized path has a static route with a handler for
that method is served by exactly that composed handler, with no
catch-all parameter attached, on the compiled fast path and on the
uncompiled fallback alike. -/
theorem static_route_dispatch (r : Router H) (rt : route H)
    (hd : routeHandler H) (method path : String)
    (hM : method ∈ fiveMethods)
    (hs : tableGet r.static (goTrimSlash path) = some rt)
    (hh : rt.getHandler method = some hd) :
    r.ServeHTTP method path = .invoked hd.handler none ∧
    r.staticCodeRun method path = .invoked hd.handler none :=
  ⟨serve_hit r rt hd method path (five_ne_options hM) hs hh,
   staticCodeRun_hit r rt hd method path hs hh⟩

theorem static_route_dispatch_witness :
    ("GET" ∈ fiveMethods) ∧
    tableGet w1r.static (goTrimSlash "/api") = some w1rt ∧
    w1rt.getHandler "GET" = some ⟨7⟩ ∧
    (w1r.ServeHTTP "GET" "/api" = .invoked 7 none ∧
     w1r.staticCodeRun "GET" "/api" = .invoked 7 none) :=
  ⟨by decide, rfl, rfl,
   static_route_dispatch w1r w1rt ⟨7⟩ "GET" "/api" (by decide) rfl rfl⟩

/-- Claim C4: an OPTIONS request is answered immediately with the fixed
no-content response and Allow header, for every router state and every
path. -/
theorem options_short_circuit (r : Router H) (path : String) :
    r.ServeHTTP "OPTIONS" path =
      .noContent "GET,POST,PUT,DELETE,PATCH,OPTIONS" := by
  unfold Router.ServeHTTP
  rw [if_pos rfl]

/-- Claim C2: a request with a dispatchable method whose normalized path
has no static handler for that method is served by the catch-all handler
for that method when one exists, and GetParams inside that handler
returns exactly the normalized path. -/
theorem catchall_dispatch (r : Router H) (ca : route H) (hd : routeHandler H)
    (method path : String)
    (hM : method ∈ fiveMethods)
    (hs : staticHandlerFor r method (goTrimSlash path) = none)
    (hca : r.catchAll = some ca)
    (hh : ca.getHandler method = some hd) :
    r.ServeHTTP method path = .invoked hd.handler (some (goTrimSlash path)) ∧
    r.staticCodeRun method path =
      .invoked hd.handler (some (goTrimSlash path)) ∧
    GetParams (some (goTrimSlash path)) = goTrimSlash path := by
  refine ⟨?_, ?_, rfl⟩
  · rw [serve_skip r method path (five_ne_options hM) hs]
    exact catchAllStep_invoked r ca hd method _ hca hh
  · rw [staticCodeRun_skip r method path hs]
    exact catchAllStep_invoked r ca hd method _ hca hh

theorem catchall_dispatch_witness :
    ("GET" ∈ fiveMethods) ∧
    staticHandlerFor w2r "GET" (goTrimSlash "/random") = none ∧
    w2r.catchAll = some w2ca ∧
    w2ca.getHandler "GET" = some ⟨9⟩ ∧
    (w2r.ServeHTTP "GET" "/random" = .invoked 9 (some "random") ∧
     w2r.staticCodeRun "GET" "/random" = .invoked 9 (some "random") ∧
     GetParams (some "random") = "random") :=
  ⟨by decide, rfl, rfl, rfl,
   catchall_dispatch w2r w2ca ⟨9⟩ "GET" "/random" (by decide) rfl rfl rfl⟩

/-- Claim C5: a non-OPTIONS request with neither a static handler for
its method at its normalized path nor a catch-all handler for its method
gets the not-found response, on both dispatch paths. -/
theorem no_match_not_found (r : Router H) (method path : String)
    (hne : method ≠ "OPTIONS")
    (hs : staticHandlerFor r method (goTrimSlash path) = none)
    (hca : catchAllHandlerFor r method = none) :
    r.ServeHTTP method path = .notFound ∧
    r.staticCodeRun method path = .notFound := by
  constructor
  · rw [serve_skip r method path hne hs]
    exact catchAllStep_notFound r method _ hca
  · rw [staticCodeRun_skip r method path hs]
    exact catchAllStep_notFound r method _ hca

theorem no_match_not_found_witness :
    ("TRACE" : String) ≠ "OPTIONS" ∧
    staticHandlerFor w5r "TRACE" (goTrimSlash "/api") = none ∧
    catchAllHandlerFor w5r "TRACE" = none ∧
    (w5r.ServeHTTP "TRACE" "/api" = .notFound ∧
     w5r.staticCodeRun "TRACE" "/api" = .notFound) :=
  ⟨by decide, rfl, rfl,
   no_match_not_found w5r "TRACE" "/api" (by decide) rfl rfl⟩

/-- Claim C7: registering ANY with the star token installs the catch-all
route with all five method slots holding the same composed handler, and
afterwards any of the five methods on a path with no static handler for
it invokes that handler. -/
theorem catchall_registration (r : Router H) (hd : H)
    (mws : List (Middleware H)) (method q : String)
    (hM : method ∈ fiveMethods)
    (hs : staticHandlerFor r method (goTrimSlash q) = none) :
    catchAllHandlerFor (r.ANY "*" hd mws) method =
      some ⟨composeHandler hd (r.globalMWs ++ mws)⟩ ∧
    (r.ANY "*" hd mws).ServeHTTP method q =
      .invoked (composeHandler hd (r.globalMWs ++ mws))
        (some (goTrimSlash q)) := by
  have hslot : catchAllHandlerFor (r.ANY "*" hd mws) method =
      some ⟨composeHandler hd (r.globalMWs ++ mws)⟩ := by
    fin_cases hM <;> rfl
  refine ⟨hslot, ?_⟩
  have hca : (r.ANY "*" hd mws).catchAll =
      some ((r.ANY "*" hd mws).catchAll.getD routeEmpty) := rfl
  have hgh : ((r.ANY "*" hd mws).catchAll.getD routeEmpty).getHandler method =
      some ⟨composeHandler hd (r.globalMWs ++ mws)⟩ := by
    fin_cases hM <;> rfl
  rw [serve_skip (r.ANY "*" hd mws) method q (five_ne_options hM) hs]
  exact catchAllStep_invoked _ _ _ method _ hca hgh

theorem catchall_registration_witness :
    ("POST" ∈ fiveMethods) ∧
    staticHandlerFor (Router.New (H := Nat)) "POST" (goTrimSlash "/zzz") =
      none ∧
    (catchAllHandlerFor ((Router.New (H := Nat)).ANY "*" 9 []) "POST" =
      some ⟨9⟩ ∧
     ((Router.New (H := Nat)).ANY "*" 9 []).ServeHTTP "POST" "/zzz" =
      .invoked 9 (some "zzz")) :=
  ⟨by decide, rfl,
   catchall_registration (Router.New (H := Nat)) 9 [] "POST" "/zzz"
     (by decide) rfl⟩

/-- Claim C10: on a group, ANY with the star token is exactly a
router-wide catch-all registration with the group middlewares prepended
to the per-call ones; no partition key gains the group prefix, and the
resulting catch-all serves any unmatched path, prefixed or not. -/
theorem group_any_star (pfx : String) (gmws : List (Middleware H))
    (r : Router H) (hd : H) (mws : List (Middleware H)) (method q : String)
    (hM : method ∈ fiveMethods)
    (hs : staticHandlerFor r method (goTrimSlash q) = none) :
    (Group.mk pfx gmws).ANY r "*" hd mws = r.addCatchAll hd (gmws ++ mws) ∧
    ((Group.mk pfx gmws).ANY r "*" hd mws).static = r.static ∧
    ((Group.mk pfx gmws).ANY r "*" hd mws).params = r.params ∧
    ((Group.mk pfx gmws).ANY r "*" hd mws).wildcards = r.wildcards ∧
    catchAllHandlerFor ((Group.mk pfx gmws).ANY r "*" hd mws) method =
      some ⟨composeHandler hd (r.globalMWs ++ (gmws ++ mws))⟩ ∧
    ((Group.mk pfx gmws).ANY r "*" hd mws).ServeHTTP method q =
      .invoked (composeHandler hd (r.globalMWs ++ (gmws ++ mws)))
        (some (goTrimSlash q)) := by
  refine ⟨rfl, rfl, rfl, rfl, ?_, ?_⟩
  · fin_cases hM <;> rfl
  · have hca : ((Group.mk pfx gmws).ANY r "*" hd mws).catchAll =
        some (((Group.mk pfx gmws).ANY r "*" hd mws).catchAll.getD
          routeEmpty) := rfl
    have hgh : (((Group.mk pfx gmws).ANY r "*" hd mws).catchAll.getD
        routeEmpty).getHandler method =
        some ⟨composeHandler hd (r.globalMWs ++ (gmws ++ mws))⟩ := by
      fin_cases hM <;> rfl
    rw [serve_skip ((Group.mk pfx gmws).ANY r "*" hd mws) method q
      (five_ne_options hM) hs]
    exact catchAllStep_invoked _ _ _ method _ hca hgh

theorem group_any_star_witness :
    ("GET" ∈ fiveMethods) ∧
    staticHandlerFor (Router.New (H := Nat)) "GET" (goTrimSlash "/outside") =
      none ∧
    ((Group.mk "admin" []).ANY (Router.New (H := Nat)) "*" 3 [] =
       (Router.New (H := Nat)).addCatchAll 3 [] ∧
     ((Group.mk "admin" []).ANY (Router.New (H := Nat)) "*" 3 []).static =
       (Router.New (H := Nat)).static ∧
     ((Group.mk "admin" []).ANY (Router.New (H := Nat)) "*" 3 []).params =
       (Router.New (H := Nat)).params ∧
     ((Group.mk "admin" []).ANY (Router.New (H := Nat)) "*" 3 []).wildcards =
       (Router.New (H := Nat)).wildcards ∧
     catchAllHandlerFor
       ((Group.mk "admin" []).ANY (Router.New (H := Nat)) "*" 3 []) "GET" =
       some ⟨3⟩ ∧
     ((Group.mk "admin" []).ANY
        (Router.New (H := Nat)) "*" 3 []).ServeHTTP "GET" "/outside" =
       .invoked 3 (some "outside")) :=
  ⟨by decide, rfl,
   group_any_star "admin" [] (Router.New (H := Nat)) 3 [] "GET" "/outside"
     (by decide) rfl⟩

theorem composeHandler_tags (h : List Nat) (xs : List Nat) :
    composeHandler h (xs.map tag) = xs ++ h := by
  induction xs with
  | nil => rfl
  | cons x xs ih =>
      simp only [List.map_cons, composeHandler, List.foldr_cons, tag,
        List.cons_append]
      exact congrArg (x :: ·) ih

/-- Claim C3 (counterexample): with tracing middlewares, register global
middleware 1, then a GET route with no per-route middlewares over the
terminal handler 0, then global middleware 2.  The claimed order is
globals in Use order then the terminal, each middleware once, which
would give the trace 1, 2, 0; the code produces 1, 2, 1, 0, running
middleware 1 twice. -/
theorem use_after_registration_duplicates :
    ((((Router.New (H := List Nat)).Use [tag 1]).addRoute mGet "x" [0]
        []).Use [tag 2]).ServeHTTP "GET" "/x" =
      Outcome.invoked [1, 2, 1, 0] none ∧
    List.count 1 [1, 2, 1, 0] = 2 ∧
    ([1, 2, 1, 0] : List Nat) ≠ [1, 2] ++ [0] :=
  ⟨rfl, by decide, by decide⟩

/-- Claim C3 (amended): middlewares global at registration time run in
Use order, then the per-registration middlewares in their given order,
then the terminal handler, each exactly once, provided no Use call
happens after the registration.  A later Use call instead wraps the
entire updated global list around the already-composed handler, so the
middlewares that were global at registration time run twice. -/
theorem middleware_order (gs ls hs2 : List Nat) (t : Nat) :
    ((((Router.New (H := List Nat)).Use (gs.map tag)).addRoute mGet "api"
        [t] (ls.map tag)).ServeHTTP "GET" "/api" =
      Outcome.invoked ((gs ++ ls) ++ [t]) none) ∧
    (((((Router.New (H := List Nat)).Use (gs.map tag)).addRoute mGet "api"
        [t] (ls.map tag)).Use (hs2.map tag)).ServeHTTP "GET" "/api" =
      Outcome.invoked ((gs ++ hs2) ++ ((gs ++ ls) ++ [t])) none) := by
  constructor
  · have e1 : ((((Router.New (H := List Nat)).Use (gs.map tag)).addRoute
        mGet "api" [t] (ls.map tag)).ServeHTTP "GET" "/api") =
        Outcome.invoked (composeHandler [t] (gs.map tag ++ ls.map tag))
          none := rfl
    rw [e1, ← List.map_append, composeHandler_tags]
  · have e2 : ((((((Router.New (H := List Nat)).Use (gs.map tag)).addRoute
        mGet "api" [t] (ls.map tag)).Use (hs2.map tag)).ServeHTTP "GET"
        "/api") : Outcome (List Nat)) =
        Outcome.invoked
          (composeHandler
            (composeHandler [t] (gs.map tag ++ ls.map tag))
            (gs.map tag ++ hs2.map tag)) none := rfl
    rw [e2, ← List.map_append, ← List.map_append, composeHandler_tags,
      composeHandler_tags]

theorem tableGet_tableSet_self (t : List (String × route H)) (k : String)
    (v : route H) : tableGet (tableSet t k v) k = some v := by
  induction t with
  | nil => simp [tableSet, tableGet]
  | cons p rest ih =>
      by_cases h : p.1 = k
      · simp [tableSet, h, tableGet]
      · cases p with
        | mk k2 w => simp only at h; simp [tableSet, h, tableGet, ih]

theorem tableGet_tableSet_ne (t : List (String × route H)) (k q : String)
    (v : route H) (hq : q ≠ k) :
    tableGet (tableSet t k v) q = tableGet t q := by
  induction t with
  | nil => simp [tableSet, tableGet, Ne.symm hq]
  | cons p rest ih =>
      cases p with
      | mk k2 w =>
          by_cases h : k2 = k
          · subst h; simp [tableSet, tableGet, Ne.symm hq]
          · simp only [tableSet, h, if_false]
            by_cases h2 : k2 = q
            · simp [tableGet, h2]
            · simp [tableGet, h2, ih]

theorem addRoute_slot_self (r : Router H) (m : Fin 6) (path : String)
    (hd : H) (mws : List (Middleware H)) :
    slotForPath (r.addRoute m path hd mws) path m =
      some ⟨composeHandler hd (r.globalMWs ++ mws)⟩ := by
  cases hw : hasSuffixStar (goTrimSlash path) with
  | true =>
      simp [slotForPath, routeFor, partitionOf, routeKey, Router.addRoute,
        hw, Router.compileStatic, tableGet_tableSet_self, updSlot]
  | false =>
      cases hp : containsColon (goTrimSlash path) with
      | true =>
          simp [slotForPath, routeFor, partitionOf, routeKey, Router.addRoute,
            hw, hp, Router.compileStatic, tableGet_tableSet_self, updSlot]
      | false =>
          simp [slotForPath, routeFor, partitionOf, routeKey, Router.addRoute,
            hw, hp, Router.compileStatic, tableGet_tableSet_self, updSlot]

theorem addRoute_slot_other (r : Router H) (m mo : Fin 6) (path : String)
    (hd : H) (mws : List (Middleware H)) (hmo : mo ≠ m) :
    slotForPath (r.addRoute m path hd mws) path mo =
      slotForPath r path mo := by
  cases hrf : routeFor r path with
  | none =>
      cases hw : hasSuffixStar (goTrimSlash path) with
      | true =>
          simp [routeFor, partitionOf, routeKey, hw] at hrf
          simp [slotForPath, routeFor, partitionOf, routeKey, Router.addRoute,
            hw, Router.compileStatic, tableGet_tableSet_self, updSlot, hmo,
            hrf, routeEmpty]
      | false =>
          cases hp : containsColon (goTrimSlash path) with
          | true =>
              simp [routeFor, partitionOf, routeKey, hw, hp] at hrf
              simp [slotForPath, routeFor, partitionOf, routeKey,
                Router.addRoute, hw, hp, Router.compileStatic,
                tableGet_tableSet_self, updSlot, hmo, hrf, routeEmpty]
          | false =>
              simp [routeFor, partitionOf, routeKey, hw, hp] at hrf
              simp [slotForPath, routeFor, partitionOf, routeKey,
                Router.addRoute, hw, hp, Router.compileStatic,
                tableGet_tableSet_self, updSlot, hmo, hrf, routeEmpty]
  | some rt =>
      cases hw : hasSuffixStar (goTrimSlash path) with
      | true =>
          simp [routeFor, partitionOf, routeKey, hw] at hrf
          simp [slotForPath, routeFor, partitionOf, routeKey, Router.addRoute,
            hw, Router.compileStatic, tableGet_tableSet_self, updSlot, hmo,
            hrf]
      | false =>
          cases hp : containsColon (goTrimSlash path) with
          | true =>
              simp [routeFor, partitionOf, routeKey, hw, hp] at hrf
              simp [slotForPath, routeFor, partitionOf, routeKey,
                Router.addRoute, hw, hp, Router.compileStatic,
                tableGet_tableSet_self, updSlot, hmo, hrf]
          | false =>
              simp [routeFor, partitionOf, routeKey, hw, hp] at hrf
              simp [slotForPath, routeFor, partitionOf, routeKey,
                Router.addRoute, hw, hp, Router.compileStatic,
                tableGet_tableSet_self, updSlot, hmo, hrf]

theorem routeFor_addRoute_other (r : Router H) (m : Fin 6) (path q : String)
    (hd : H) (mws : List (Middleware H))
    (hq : partKind q ≠ partKind path ∨ routeKey q ≠ routeKey path) :
    routeFor (r.addRoute m path hd mws) q = routeFor r q := by
  cases hw : hasSuffixStar (goTrimSlash path) with
  | true =>
      cases hwq : hasSuffixStar (goTrimSlash q) with
      | true =>
          have hk : routeKey q ≠ routeKey path := by
            rcases hq with h | h
            · exact absurd (by simp [partKind, hw, hwq]) h
            · exact h
          simp [routeKey, hw, hwq] at hk
          simp [routeFor, partitionOf, routeKey, Router.addRoute, hw, hwq,
            Router.compileStatic, tableGet_tableSet_ne _ _ _ _ hk]
      | false =>
          simp [routeFor, partitionOf, routeKey, Router.addRoute, hw, hwq,
            Router.compileStatic]
  | false =>
      cases hp : containsColon (goTrimSlash path) with
      | true =>
          cases hwq : hasSuffixStar (goTrimSlash q) with
          | true =>
              simp [routeFor, partitionOf, routeKey, Router.addRoute, hw, hp,
                hwq, Router.compileStatic]
          | false =>
              cases hpq : containsColon (goTrimSlash q) with
              | true =>
                  have hk : routeKey q ≠ routeKey path := by
                    rcases hq with h | h
                    · exact absurd (by simp [partKind, hw, hp, hwq, hpq]) h
                    · exact h
                  simp [routeKey, hw, hwq] at hk
                  simp [routeFor, partitionOf, routeKey, Router.addRoute, hw,
                    hp, hwq, hpq, Router.compileStatic,
                    tableGet_tableSet_ne _ _ _ _ hk]
              | false =>
                  simp [routeFor, partitionOf, routeKey, Router.addRoute, hw,
                    hp, hwq, hpq, Router.compileStatic]
      | false =>
          cases hwq : hasSuffixStar (goTrimSlash q) with
          | true =>
              simp [routeFor, partitionOf, routeKey, Router.addRoute, hw, hp,
                hwq, Router.compileStatic]
          | false =>
              cases hpq : containsColon (goTrimSlash q) with
              | true =>
                  simp [routeFor, partitionOf, routeKey, Router.addRoute, hw,
                    hp, hwq, hpq, Router.compileStatic]
              | false =>
                  have hk : routeKey q ≠ routeKey path := by
                    rcases hq with h | h
                    · exact absurd (by simp [partKind, hw, hp, hwq, hpq]) h
                    · exact h
                  simp [routeKey, hw, hwq] at hk
                  simp [routeFor, partitionOf, routeKey, Router.addRoute, hw,
                    hp, hwq, hpq, Router.compileStatic,
                    tableGet_tableSet_ne _ _ _ _ hk]

theorem addRoute_catchAll_unchanged (r : Router H) (m : Fin 6)
    (path : String) (hd : H) (mws : List (Middleware H)) :
    (r.addRoute m path hd mws).catchAll = r.catchAll := by
  cases hw : hasSuffixStar (goTrimSlash path) with
  | true => simp [Router.addRoute, hw, Router.compileStatic]
  | false =>
      cases hp : containsColon (goTrimSlash path) with
      | true => simp [Router.addRoute, hw, hp, Router.compileStatic]
      | false => simp [Router.addRoute, hw, hp, Router.compileStatic]

/-- Claim C6: re-registering an already-registered path for one method,
in whichever partition the path classifies into (static, parameterized
or wildcard), replaces exactly that method slot of the existing Route
with the freshly composed handler; every other method slot of that path
keeps its previous handler, every other registration path (different
stored key or different partition) keeps its Route, and the catch-all is
unchanged. -/
theorem reregistration_frame (r : Router H) (rt : route H) (m mo : Fin 6)
    (path q : String) (hd2 : H) (mws2 : List (Middleware H))
    (hex : routeFor r path = some rt)
    (hmo : mo ≠ m)
    (hq : partKind q ≠ partKind path ∨ routeKey q ≠ routeKey path) :
    slotForPath (r.addRoute m path hd2 mws2) path m =
      some ⟨composeHandler hd2 (r.globalMWs ++ mws2)⟩ ∧
    slotForPath (r.addRoute m path hd2 mws2) path mo = rt.handlers mo ∧
    routeFor (r.addRoute m path hd2 mws2) q = routeFor r q ∧
    (r.addRoute m path hd2 mws2).catchAll = r.catchAll := by
  refine ⟨addRoute_slot_self r m path hd2 mws2, ?_,
    routeFor_addRoute_other r m path q hd2 mws2 hq,
    addRoute_catchAll_unchanged r m path hd2 mws2⟩
  rw [addRoute_slot_other r m mo path hd2 mws2 hmo]
  simp [slotForPath, hex]

theorem reregistration_frame_witness :
    routeFor w6r "/files/*" = some w6rt ∧
    mPost ≠ mGet ∧
    (partKind "/other" ≠ partKind "/files/*" ∨
      routeKey "/other" ≠ routeKey "/files/*") ∧
    (slotForPath (w6r.addRoute mGet "/files/*" 2 []) "/files/*" mGet =
       some ⟨2⟩ ∧
     slotForPath (w6r.addRoute mGet "/files/*" 2 []) "/files/*" mPost =
       w6rt.handlers mPost ∧
     routeFor (w6r.addRoute mGet "/files/*" 2 []) "/other" =
       routeFor w6r "/other" ∧
     (w6r.addRoute mGet "/files/*" 2 []).catchAll = w6r.catchAll) :=
  ⟨rfl, by decide, by decide,
   reregistration_frame w6r w6rt mGet mPost "/files/*" "/other" 2 [] rfl
     (by decide) (by decide)⟩

theorem serve_congr (r1 r2 : Router H) (method q : String)
    (h1 : r1.static = r2.static) (h2 : r1.catchAll = r2.catchAll)
    (h3 : r1.staticCodePresent = r2.staticCodePresent) :
    r1.ServeHTTP method q = r2.ServeHTTP method q := by
  cases r1
  cases r2
  simp only at h1 h2 h3
  cases h1
  cases h2
  cases h3
  rfl

/-- Claim C8: dispatch never reads the parameterized or wildcard
partitions: replacing them by anything (in particular by the empty
tables) leaves every dispatch outcome unchanged, and registering a
parameterized or wildcard path on a router whose compiled flag is
consistent changes no dispatch outcome at all. -/
theorem dead_partitions (r : Router H) (ps ws : List (String × route H))
    (m : Fin 6) (path : String) (hd : H) (mws : List (Middleware H))
    (method q : String)
    (hflag : r.staticCodePresent = !r.static.isEmpty)
    (hclass : (hasSuffixStar (goTrimSlash path) ||
      containsColon (goTrimSlash path)) = true) :
    Router.ServeHTTP { r with params := ps, wildcards := ws } method q =
      Router.ServeHTTP { r with params := [], wildcards := [] } method q ∧
    (r.addRoute m path hd mws).ServeHTTP method q = r.ServeHTTP method q := by
  constructor
  · exact serve_congr _ _ method q rfl rfl rfl
  · cases hw : hasSuffixStar (goTrimSlash path) with
    | true =>
        apply serve_congr
        · simp [Router.addRoute, hw, Router.compileStatic]
        · simp [Router.addRoute, hw, Router.compileStatic]
        · simp [Router.addRoute, hw, Router.compileStatic, hflag]
    | false =>
        have hp : containsColon (goTrimSlash path) = true := by
          rw [hw] at hclass
          simpa using hclass
        apply serve_congr
        · simp [Router.addRoute, hw, hp, Router.compileStatic]
        · simp [Router.addRoute, hw, hp, Router.compileStatic]
        · simp [Router.addRoute, hw, hp, Router.compileStatic, hflag]

theorem dead_partitions_witness :
    w8r.staticCodePresent = !w8r.static.isEmpty ∧
    (hasSuffixStar (goTrimSlash "/users/:id") ||
      containsColon (goTrimSlash "/users/:id")) = true ∧
    (Router.ServeHTTP
        { w8r with params := [("p", routeEmpty)], wildcards :=
            [("w", routeEmpty)] } "GET" "/users/123" =
       Router.ServeHTTP { w8r with params := [], wildcards := [] } "GET"
         "/users/123" ∧
     (w8r.addRoute mGet "/users/:id" 5 []).ServeHTTP "GET" "/users/123" =
       w8r.ServeHTTP "GET" "/users/123") :=
  ⟨rfl, by decide,
   dead_partitions w8r [("p", routeEmpty)] [("w", routeEmpty)] mGet
     "/users/:id" 5 [] "GET" "/users/123" rfl (by decide)⟩

theorem goodFlag_compileStatic (r : Router H) : goodFlag r.compileStatic := rfl

theorem goodFlag_addRoute (r : Router H) (m : Fin 6) (p : String) (hd : H)
    (mws : List (Middleware H)) : goodFlag (r.addRoute m p hd mws) := by
  simp only [Router.addRoute]
  exact goodFlag_compileStatic _

theorem goodFlag_addCatchAll (r : Router H) (hd : H)
    (mws : List (Middleware H)) (hg : goodFlag r) :
    goodFlag (r.addCatchAll hd mws) := hg

theorem goodFlag_foldl_addRoute (l : List (Fin 6)) (r : Router H)
    (p : String) (hd : H) (mws : List (Middleware H)) (hg : goodFlag r) :
    goodFlag (l.foldl (fun acc i => acc.addRoute i p hd mws) r) := by
  induction l generalizing r with
  | nil => exact hg
  | cons x xs ih => exact ih _ (goodFlag_addRoute r x p hd mws)

theorem goodFlag_ANY (r : Router H) (p : String) (hd : H)
    (mws : List (Middleware H)) (hg : goodFlag r) :
    goodFlag (r.ANY p hd mws) := by
  unfold Router.ANY
  split
  · exact goodFlag_addCatchAll _ _ _ hg
  · exact goodFlag_foldl_addRoute _ _ _ _ _ hg

theorem goodFlag_Use (r : Router H) (mws : List (Middleware H)) :
    goodFlag (r.Use mws) := by
  unfold Router.Use Router.recomposeHandlers
  exact goodFlag_compileStatic _

theorem goodFlag_groupAddRoute (g : Group H) (r : Router H) (m : Fin 6)
    (p : String) (hd : H) (mws : List (Middleware H)) :
    goodFlag (g.addRoute r m p hd mws) :=
  goodFlag_addRoute _ _ _ _ _

theorem goodFlag_groupANY (g : Group H) (r : Router H) (p : String) (hd : H)
    (mws : List (Middleware H)) (hg : goodFlag r) :
    goodFlag (g.ANY r p hd mws) := by
  unfold Group.ANY
  split
  · exact goodFlag_addCatchAll _ _ _ hg
  · show goodFlag (List.foldl
      (fun acc i => acc.addRoute i (g.pfx ++ "/" ++ goTrimSlash p) hd
        (g.mws ++ mws)) r [mGet, mPost, mPut, mDelete, mPatch])
    exact goodFlag_foldl_addRoute _ _ _ _ _ hg

theorem goodFlag_applyOp (r : Router H) (op : Op H) (hg : goodFlag r) :
    goodFlag (applyOp r op) := by
  cases op with
  | reg m p hd mws => exact goodFlag_addRoute r m p hd mws
  | regAny p hd mws => exact goodFlag_ANY r p hd mws hg
  | regGroup pfx gmws m p hd mws => exact goodFlag_groupAddRoute _ r m p hd mws
  | regGroupAny pfx gmws p hd mws => exact goodFlag_groupANY _ r p hd mws hg
  | use mws => exact goodFlag_Use r mws

theorem goodFlag_runOps (ops : List (Op H)) (r : Router H) (hg : goodFlag r) :
    goodFlag (runOps r ops) := by
  induction ops generalizing r with
  | nil => exact hg
  | cons op ops ih => exact ih _ (goodFlag_applyOp r op hg)

/-- Claim C9: in every router state reachable from New by registrations,
catch-all registrations, group registrations and Use calls, the compiled
fast path is present exactly when the static partition is non-empty. -/
theorem compiled_iff_static_nonempty {H : Type} (ops : List (Op H)) :
    ((runOps (Router.New (H := H)) ops).staticCodePresent = true) ↔
    (runOps (Router.New (H := H)) ops).static ≠ [] := by
  have hg : goodFlag (runOps (Router.New (H := H)) ops) :=
    goodFlag_runOps ops Router.New rfl
  unfold goodFlag at hg
  rw [hg]
  cases (runOps (Router.New (H := H)) ops).static <;> simp

end Blitz
